import Mathlib

/-!
Shallow embedding of the weather-forecast repository (src/js/api.js and
src/js/storage.js) together with proofs about its forecast aggregation,
icon mapping and preference-store operations.

Modelling conventions:
* JavaScript plain objects used as string-keyed maps keep the insertion
  order of their (non-integer-like) keys; `Object.values` enumerates the
  values in that order, and assigning to an existing key updates the
  value in place without moving the key.  We model such an object as an
  association list with `objGet` / `objSet` below.
* The date key `new Date(dt*1000).toISOString().split('T')[0]` is the
  UTC calendar date of the timestamp; for nonnegative timestamps this is
  in order-preserving bijection with the day number `ms / 86400000`, so
  the embedding uses the day number as the date key.
* `date.getHours()` is the hour in the environment's local time zone;
  the embedding models an environment whose local time zone is UTC, so
  the hour of a timestamp `ms` is `ms / 3600000 % 24`.
* JavaScript `Math.round x` rounds half toward positive infinity; on a
  rational input this is `⌊x + 1/2⌋` (`jsRound`).  Numeric fields coming
  from the provider are modelled as rationals.
-/

namespace WeatherApp

/-- JS object read `obj[k]`: `some v` if key `k` is present, else `none`. -/
def objGet {K V : Type} [DecidableEq K] : List (K × V) → K → Option V
  | [], _ => none
  | (k', v) :: t, k => if k' = k then some v else objGet t k

/-- JS object write `obj[k] = v`: updates the first binding of `k` in
place, or appends a new binding at the end (insertion order). -/
def objSet {K V : Type} [DecidableEq K] : List (K × V) → K → V → List (K × V)
  | [], k, v => [(k, v)]
  | (k', v') :: t, k, v =>
    if k' = k then (k, v) :: t else (k', v') :: objSet t k v

/-- JavaScript `Math.round`: round half toward positive infinity. -/
def jsRound (x : ℚ) : ℤ := ⌊x + 1/2⌋

/-- Day number of an epoch-millisecond timestamp (UTC calendar date of
`new Date(ms).toISOString()`), the model of the `dateKey` string. -/
def dateKeyOfMs (ms : ℕ) : ℕ := ms / 86400000

/-- Hour of day of an epoch-millisecond timestamp, the model of
`new Date(ms).getHours()` in a UTC environment. -/
def hoursOfMs (ms : ℕ) : ℕ := ms / 3600000 % 24

/-- `Math.abs(hour - 12)`, the distance of an hour from noon. -/
def noonDist (h : ℕ) : ℕ := ((h : ℤ) - 12).natAbs

/-- One raw forecast sample from the provider's `data.list`
(`item.dt` in epoch seconds; numeric fields as delivered). -/
structure RawItem where
  dt : ℕ
  temp : ℚ
  temp_min : ℚ
  temp_max : ℚ
  humidity : ℕ
  description : String
  icon : String
  main : String
  windSpeed : ℚ
deriving DecidableEq, Repr

/-- One formatted per-day forecast record built inside `formatForecast`. -/
structure DailyForecast where
  date : ℕ
  timestamp : ℕ
  temperature : ℤ
  tempMin : ℤ
  tempMax : ℤ
  humidity : ℕ
  description : String
  icon : String
  main : String
  windSpeed : ℤ
deriving DecidableEq, Repr

/-- The record stored for a sample in `dailyForecasts[dateKey]`
(api.js lines 181-192). -/
def mkDaily (item : RawItem) : DailyForecast :=
  { date := dateKeyOfMs (item.dt * 1000)
    timestamp := item.dt * 1000
    temperature := jsRound item.temp
    tempMin := jsRound item.temp_min
    tempMax := jsRound item.temp_max
    humidity := item.humidity
    description := item.description
    icon := item.icon
    main := item.main
    windSpeed := jsRound (item.windSpeed * (36/10)) }

/-- The body of the `forEach` loop of `formatForecast` (api.js lines
174-194): replace the day's record when no record exists yet or the
candidate's hour is strictly closer to noon. -/
def forecastStep (m : List (ℕ × DailyForecast)) (item : RawItem) :
    List (ℕ × DailyForecast) :=
  match objGet m (dateKeyOfMs (item.dt * 1000)) with
  | none => objSet m (dateKeyOfMs (item.dt * 1000)) (mkDaily item)
  | some d =>
    if noonDist (hoursOfMs (item.dt * 1000)) <
        noonDist (hoursOfMs d.timestamp) then
      objSet m (dateKeyOfMs (item.dt * 1000)) (mkDaily item)
    else m

/-- `formatForecast` (api.js lines 170-198): fold the samples through
`forecastStep`, then `Object.values(dailyForecasts).slice(0, 5)`. -/
def formatForecast (items : List RawItem) : List DailyForecast :=
  ((items.foldl forecastStep []).map Prod.snd).take 5

/-- The icon table of `getWeatherIcon` (api.js lines 206-225), an object
literal mapping provider icon codes to emoji. -/
def iconMap : List (String × String) :=
  [ ("01d", "☀️"), ("01n", "🌙"),
    ("02d", "⛅"), ("02n", "☁️"),
    ("03d", "☁️"), ("03n", "☁️"),
    ("04d", "☁️"), ("04n", "☁️"),
    ("09d", "🌧️"), ("09n", "🌧️"),
    ("10d", "🌦️"), ("10n", "🌧️"),
    ("11d", "⛈️"), ("11n", "⛈️"),
    ("13d", "❄️"), ("13n", "❄️"),
    ("50d", "🌫️"), ("50n", "🌫️") ]

/-- `getWeatherIcon` (api.js lines 205-228):
`iconMap[iconCode] || fallback` — a missing key yields `undefined` and a
falsy value (the empty string) also selects the fallback. -/
def getWeatherIcon (iconCode : String) : String :=
  match objGet iconMap iconCode with
  | some s => if s = "" then "🌡️" else s
  | none => "🌡️"

/-- JavaScript `String.prototype.toLowerCase` for one character in the
ASCII range (the only range app city names use): map `A`-`Z` to
`a`-`z`, leave everything else unchanged. -/
def jsCharToLower (c : Char) : Char :=
  if 65 ≤ c.toNat ∧ c.toNat ≤ 90 then Char.ofNat (c.toNat + 32) else c

/-- JavaScript `s.toLowerCase()` on the ASCII range, applied
characterwise. -/
def jsToLower (s : String) : String := ⟨s.data.map jsCharToLower⟩

/-! ## The storage boundary (storage.js lines 15-39)

`saveToStorage` and `getFromStorage` call two external collaborators that
may throw: `JSON.stringify` / `JSON.parse` and
`localStorage.setItem` / `localStorage.getItem`.  Each collaborator call
is modelled by its outcome, an `Except` value; the `try/catch` around
the body turns any thrown error into the function's fallback return. -/

/-- An error thrown by a collaborator (serialization failure, storage
quota, ...). -/
inductive JSError where
  | quotaExceeded
  | typeError
  | syntaxError
  | other (msg : String)
deriving DecidableEq, Repr

/-- `saveToStorage` (storage.js lines 15-24), parameterized by the
outcomes of `JSON.stringify(value)` and of `localStorage.setItem` on the
serialized string: any thrown error is caught and `false` returned. -/
def saveToStorage (stringifyRes : Except JSError String)
    (setItemRes : String → Except JSError Unit) : Bool :=
  match stringifyRes with
  | .error _ => false
  | .ok serialized =>
    match setItemRes serialized with
    | .error _ => false
    | .ok _ => true

/-- `getFromStorage` (storage.js lines 31-39), parameterized by the
outcomes of `localStorage.getItem(key)` (`none` models `null`) and of
`JSON.parse`: `item ? JSON.parse(item) : null` treats the empty string
as falsy, and any thrown error is caught and `null` returned. -/
def getFromStorage {α : Type} (getItemRes : Except JSError (Option String))
    (parseRes : String → Except JSError α) : Option α :=
  match getItemRes with
  | .error _ => none
  | .ok none => none
  | .ok (some item) =>
    if item = "" then none
    else
      match parseRes item with
      | .error _ => none
      | .ok v => some v

/-! ## The typed preference store (storage.js lines 74-252)

The typed accessors each use a fixed storage key and round-trip their
value through JSON; on the success path of the underlying store this is
the identity, so the store is modelled as a record holding the decoded
value (or `none` when the key is absent) under each app storage key. -/

/-- A stored favorite city: the spread of the `cityData` argument plus
the `addedAt` timestamp (storage.js lines 109-112); `lastUpdated` is set
by `updateFavoriteCityWeather`. -/
structure Fav where
  name : String
  country : String
  temperature : ℤ
  icon : String
  addedAt : ℕ
  lastUpdated : Option ℕ
deriving DecidableEq, Repr

/-- The `cityData` argument of `addFavoriteCity`. -/
structure CityData where
  name : String
  country : String
  temperature : ℤ
  icon : String
deriving DecidableEq, Repr

/-- The decoded contents of the app's local-storage keys
(`STORAGE_KEYS`, storage.js lines 2-8); `none` models an absent key. -/
structure AppStore where
  lastCity : Option (String × ℕ)
  favoriteCities : Option (List Fav)
  theme : Option String
  unit : Option String
  lastUpdate : Option ℤ
deriving DecidableEq, Repr

/-- The store with no key written yet. -/
def AppStore.empty : AppStore :=
  { lastCity := none, favoriteCities := none, theme := none,
    unit := none, lastUpdate := none }

/-- `getFavoriteCities` (storage.js lines 144-147): the stored list, or
`[]` when absent (`favorites || []`). -/
def getFavoriteCities (s : AppStore) : List Fav :=
  s.favoriteCities.getD []

/-- The favorite built by `addFavoriteCity`:
`{ ...cityData, addedAt: Date.now() }`. -/
def mkFav (c : CityData) (now : ℕ) : Fav :=
  { name := c.name, country := c.country, temperature := c.temperature,
    icon := c.icon, addedAt := now, lastUpdated := none }

/-- `addFavoriteCity` (storage.js lines 94-119): reject (returning
`false`, no write) when some stored favorite's lowercased name equals
the candidate's lowercased name, else push and save the list.  Returns
the updated store and the boolean result. -/
def addFavoriteCity (s : AppStore) (cityData : CityData) (now : ℕ) :
    AppStore × Bool :=
  let favorites := getFavoriteCities s
  let exists' := favorites.any fun fav =>
    jsToLower fav.name = jsToLower cityData.name
  if exists' then (s, false)
  else
    ({ s with favoriteCities := some (favorites ++ [mkFav cityData now]) },
     true)

/-- `removeFavoriteCity` (storage.js lines 126-138): keep exactly the
favorites whose lowercased name differs from the lowercased argument,
and save the filtered list. -/
def removeFavoriteCity (s : AppStore) (cityName : String) :
    AppStore × Bool :=
  let favorites := getFavoriteCities s
  let filtered := favorites.filter fun fav =>
    jsToLower fav.name ≠ jsToLower cityName
  ({ s with favoriteCities := some filtered }, true)

/-- `getLastUpdate` (storage.js lines 234-236). -/
def getLastUpdate (s : AppStore) : Option ℤ :=
  s.lastUpdate

/-- `needsRefresh` (storage.js lines 243-252): `!lastUpdate` is true for
a missing value and also for the falsy number `0`; otherwise compare
`now - lastUpdate` against `minutes * 60 * 1000` with strict `>`. -/
def needsRefresh (s : AppStore) (now : ℤ) (minutes : ℕ) : Bool :=
  match getLastUpdate s with
  | none => true
  | some lastUpdate =>
    if lastUpdate = 0 then true
    else decide (now - lastUpdate > (minutes : ℤ) * 60 * 1000)

/-! ## Concrete inputs used by witnesses and counterexamples -/

/-- A raw sample at a given epoch-second timestamp with fixed weather
fields. -/
def sampleAt (dt : ℕ) : RawItem :=
  { dt := dt, temp := 20, temp_min := 18, temp_max := 22, humidity := 50,
    description := "clear sky", icon := "01d", main := "Clear",
    windSpeed := 5 }

/-- Six consecutive daily samples in ascending timestamp order. -/
def samples6 : List RawItem :=
  (List.range 6).map fun i => sampleAt (i * 86400)

/-- The invariant the `dailyForecasts` object maintains: its keys are
pairwise distinct and every stored record's `date` field is its key. -/
def mapInv (m : List (ℕ × DailyForecast)) : Prop :=
  (m.map Prod.fst).Nodup ∧ ∀ p ∈ m, p.2.date = p.1

/-- A predicate for the favorites invariant: no two entries of the list
have case-insensitively equal names. -/
def caseInsensUnique (l : List Fav) : Prop :=
  l.Pairwise fun f g => jsToLower f.name ≠ jsToLower g.name

/-- The `cityData` for Paris with capitalized name. -/
def parisCity : CityData :=
  { name := "Paris", country := "FR", temperature := 20, icon := "01d" }

/-- The `cityData` for Paris with lowercase name. -/
def parisLower : CityData :=
  { name := "paris", country := "FR", temperature := 21, icon := "02d" }

/-- A favorite stored with the all-caps name `"PARIS"`. -/
def favPARIS : Fav :=
  { name := "PARIS", country := "FR", temperature := 20,
    icon := "01d", addedAt := 0, lastUpdated := none }

/-- A favorite stored with the name `"London"`. -/
def favLondon : Fav :=
  { name := "London", country := "GB", temperature := 15,
    icon := "03d", addedAt := 1, lastUpdated := none }

/-- A store holding the favorites `"PARIS"` and `"London"`. -/
def storePARIS : AppStore :=
  { AppStore.empty with favoriteCities := some [favPARIS, favLondon] }

/-- A store whose recorded last-update timestamp is exactly `0`. -/
def storeAtEpoch : AppStore :=
  { AppStore.empty with lastUpdate := some 0 }

/-- A store whose recorded last-update timestamp is `1`. -/
def storeAtOne : AppStore :=
  { AppStore.empty with lastUpdate := some 1 }

/-! ## Helper lemmas about the JS-object model -/

theorem objGet_eq_none_not_mem {K V : Type} [DecidableEq K]
    {m : List (K × V)} {k : K} (h : objGet m k = none) :
    k ∉ m.map Prod.fst := by
  induction m with
  | nil => simp
  | cons p t ih =>
    obtain ⟨k', v⟩ := p
    by_cases hk : k' = k
    · simp [objGet, hk] at h
    · simp only [objGet, if_neg hk] at h
      simp only [List.map_cons, List.mem_cons]
      rintro (rfl | hmem)
      · exact hk rfl
      · exact ih h hmem

theorem objSet_of_get_none {K V : Type} [DecidableEq K]
    {m : List (K × V)} {k : K} (h : objGet m k = none) (v : V) :
    objSet m k v = m ++ [(k, v)] := by
  induction m with
  | nil => rfl
  | cons p t ih =>
    obtain ⟨k', v'⟩ := p
    by_cases hk : k' = k
    · simp [objGet, hk] at h
    · simp only [objGet, if_neg hk] at h
      simp [objSet, if_neg hk, ih h]

theorem objSet_keys_of_get_some {K V : Type} [DecidableEq K]
    {m : List (K × V)} {k : K} {d : V} (h : objGet m k = some d) (v : V) :
    (objSet m k v).map Prod.fst = m.map Prod.fst := by
  induction m with
  | nil => simp [objGet] at h
  | cons p t ih =>
    obtain ⟨k', v'⟩ := p
    by_cases hk : k' = k
    · simp [objSet, if_pos hk, hk]
    · simp only [objGet, if_neg hk] at h
      simp [objSet, if_neg hk, ih h]

theorem mem_objSet {K V : Type} [DecidableEq K]
    {m : List (K × V)} {k : K} {v : V} {p : K × V}
    (h : p ∈ objSet m k v) : p = (k, v) ∨ p ∈ m := by
  induction m with
  | nil => simpa [objSet] using h
  | cons q t ih =>
    obtain ⟨k', v'⟩ := q
    by_cases hk : k' = k
    · simp only [objSet, if_pos hk, List.mem_cons] at h
      rcases h with rfl | h
      · exact Or.inl rfl
      · exact Or.inr (List.mem_cons_of_mem _ h)
    · simp only [objSet, if_neg hk, List.mem_cons] at h
      rcases h with rfl | h
      · exact Or.inr (List.mem_cons_self _ _)
      · rcases ih h with h' | h'
        · exact Or.inl h'
        · exact Or.inr (List.mem_cons_of_mem _ h')

/-! ## Invariants of the forecast fold -/

theorem forecastStep_of_get_none {m : List (ℕ × DailyForecast)}
    {item : RawItem} (h : objGet m (dateKeyOfMs (item.dt * 1000)) = none) :
    forecastStep m item =
      m ++ [(dateKeyOfMs (item.dt * 1000), mkDaily item)] := by
  unfold forecastStep
  rw [h]
  exact objSet_of_get_none h _

theorem forecastStep_of_get_some_lt {m : List (ℕ × DailyForecast)}
    {item : RawItem} {d : DailyForecast}
    (h : objGet m (dateKeyOfMs (item.dt * 1000)) = some d)
    (hc : noonDist (hoursOfMs (item.dt * 1000)) <
      noonDist (hoursOfMs d.timestamp)) :
    forecastStep m item =
      objSet m (dateKeyOfMs (item.dt * 1000)) (mkDaily item) := by
  unfold forecastStep
  rw [h]
  exact if_pos hc

theorem forecastStep_of_get_some_ge {m : List (ℕ × DailyForecast)}
    {item : RawItem} {d : DailyForecast}
    (h : objGet m (dateKeyOfMs (item.dt * 1000)) = some d)
    (hc : ¬ noonDist (hoursOfMs (item.dt * 1000)) <
      noonDist (hoursOfMs d.timestamp)) :
    forecastStep m item = m := by
  unfold forecastStep
  rw [h]
  exact if_neg hc

theorem forecastStep_inv {m : List (ℕ × DailyForecast)} {item : RawItem}
    (h : mapInv m) : mapInv (forecastStep m item) := by
  obtain ⟨hnd, hdate⟩ := h
  cases hget : objGet m (dateKeyOfMs (item.dt * 1000)) with
  | none =>
    rw [forecastStep_of_get_none hget]
    constructor
    · rw [List.map_append]
      rw [List.nodup_append]
      refine ⟨hnd, List.nodup_singleton _, ?_⟩
      intro a ha hb
      simp only [List.map_cons, List.map_nil, List.mem_singleton] at hb
      subst hb
      exact objGet_eq_none_not_mem hget ha
    · intro p hp
      rcases List.mem_append.mp hp with hp' | hp'
      · exact hdate p hp'
      · simp only [List.mem_singleton] at hp'
        subst hp'
        rfl
  | some d =>
    by_cases hc : noonDist (hoursOfMs (item.dt * 1000)) <
        noonDist (hoursOfMs d.timestamp)
    · rw [forecastStep_of_get_some_lt hget hc]
      constructor
      · rw [objSet_keys_of_get_some hget]
        exact hnd
      · intro p hp
        rcases mem_objSet hp with rfl | hp'
        · rfl
        · exact hdate p hp'
    · rw [forecastStep_of_get_some_ge hget hc]
      exact ⟨hnd, hdate⟩

theorem foldl_forecastStep_inv (items : List RawItem) :
    ∀ m, mapInv m → mapInv (items.foldl forecastStep m) := by
  induction items with
  | nil => intro m h; exact h
  | cons it rest ih =>
    intro m h
    rw [List.foldl_cons]
    exact ih _ (forecastStep_inv h)

/-- A step either keeps the key sequence or appends a fresh key. -/
theorem keys_forecastStep (m : List (ℕ × DailyForecast)) (item : RawItem) :
    (forecastStep m item).map Prod.fst = m.map Prod.fst ∨
    (objGet m (dateKeyOfMs (item.dt * 1000)) = none ∧
     (forecastStep m item).map Prod.fst =
       m.map Prod.fst ++ [dateKeyOfMs (item.dt * 1000)]) := by
  cases hget : objGet m (dateKeyOfMs (item.dt * 1000)) with
  | none =>
    refine Or.inr ⟨rfl, ?_⟩
    rw [forecastStep_of_get_none hget]
    simp
  | some d =>
    by_cases hc : noonDist (hoursOfMs (item.dt * 1000)) <
        noonDist (hoursOfMs d.timestamp)
    · rw [forecastStep_of_get_some_lt hget hc]
      exact Or.inl (objSet_keys_of_get_some hget _)
    · rw [forecastStep_of_get_some_ge hget hc]
      exact Or.inl rfl

theorem foldl_forecastStep_sorted (items : List RawItem) :
    ∀ m, List.Pairwise (fun a b : RawItem => a.dt ≤ b.dt) items →
    ((m.map Prod.fst).Sorted (· < ·)) →
    (∀ k ∈ m.map Prod.fst, ∀ it ∈ items,
        k ≤ dateKeyOfMs (it.dt * 1000)) →
    ((items.foldl forecastStep m).map Prod.fst).Sorted (· < ·) := by
  induction items with
  | nil => intro m _ hs _; exact hs
  | cons it rest ih =>
    intro m hp hs hb
    rw [List.foldl_cons]
    rcases List.pairwise_cons.mp hp with ⟨hhd, hrest⟩
    rcases keys_forecastStep m it with he | ⟨hnone, he⟩
    · refine ih _ hrest ?_ ?_
      · rw [he]; exact hs
      · rw [he]
        intro k hk it' hit'
        exact hb k hk it' (List.mem_cons_of_mem _ hit')
    · refine ih _ hrest ?_ ?_
      · rw [he]
        rw [List.Sorted, List.pairwise_append]
        refine ⟨hs, List.pairwise_singleton _ _, ?_⟩
        intro x hx y hy
        simp only [List.mem_singleton] at hy
        subst hy
        have hle : x ≤ dateKeyOfMs (it.dt * 1000) :=
          hb x hx it (List.mem_cons_self _ _)
        have hne : x ≠ dateKeyOfMs (it.dt * 1000) := by
          intro hxe
          subst hxe
          exact objGet_eq_none_not_mem hnone hx
        exact lt_of_le_of_ne hle hne
      · rw [he]
        intro k hk it' hit'
        rcases List.mem_append.mp hk with hk' | hk'
        · exact hb k hk' it' (List.mem_cons_of_mem _ hit')
        · simp only [List.mem_singleton] at hk'
          subst hk'
          exact Nat.div_le_div_right
            (Nat.mul_le_mul_right _ (hhd it' hit'))

/-! ## Claim theorems: forecast aggregation -/

/-- C1 (amended): for every non-empty input, `formatForecast` returns at
most 5 entries with pairwise-distinct date keys; when the input samples
are in ascending timestamp order the returned entries are ordered by
ascending date key.  (Unconditional ordering fails: the object keeps
insertion order, see the counterexample.) -/
theorem forecast_agg_C1 (items : List RawItem) (_hne : items ≠ []) :
    (formatForecast items).length ≤ 5 ∧
    ((formatForecast items).map DailyForecast.date).Nodup ∧
    ((items.map RawItem.dt).Sorted (· ≤ ·) →
      ((formatForecast items).map DailyForecast.date).Sorted (· < ·)) := by
  have hinv : mapInv (items.foldl forecastStep []) :=
    foldl_forecastStep_inv items [] ⟨List.nodup_nil, by simp⟩
  have hdates :
      ((items.foldl forecastStep []).map Prod.snd).map DailyForecast.date
        = (items.foldl forecastStep []).map Prod.fst := by
    rw [List.map_map]
    exact List.map_congr_left fun p hp => hinv.2 p hp
  refine ⟨?_, ?_, ?_⟩
  · unfold formatForecast
    rw [List.length_take]
    exact min_le_left _ _
  · unfold formatForecast
    rw [List.map_take, hdates]
    exact List.Nodup.sublist (List.take_sublist _ _) hinv.1
  · intro hsorted
    unfold formatForecast
    rw [List.map_take, hdates]
    have hp : List.Pairwise (fun a b : RawItem => a.dt ≤ b.dt) items :=
      List.pairwise_map.mp hsorted
    have hsk := foldl_forecastStep_sorted items [] hp (by simp) (by simp)
    exact List.Pairwise.sublist (List.take_sublist _ _) hsk

/-- C1 counterexample: with the day-1 sample before the day-0 sample the
output keeps insertion order `[1, 0]`, which is not ascending, so the
unconditional ordering part of the claim is false. -/
theorem forecast_agg_C1_counterexample :
    ([sampleAt 86400, sampleAt 0] : List RawItem) ≠ [] ∧
    (formatForecast [sampleAt 86400, sampleAt 0]).map DailyForecast.date
      = [1, 0] ∧
    ¬ (((formatForecast [sampleAt 86400, sampleAt 0]).map
        DailyForecast.date).Sorted (· ≤ ·)) := by
  refine ⟨List.cons_ne_nil _ _, by decide, by decide⟩

/-- C1 witness: six ascending daily samples give 5 entries with distinct
ascending date keys. -/
theorem forecast_agg_C1_witness :
    (formatForecast samples6).length ≤ 5 ∧
    ((formatForecast samples6).map DailyForecast.date).Nodup ∧
    ((samples6.map RawItem.dt).Sorted (· ≤ ·) →
      ((formatForecast samples6).map DailyForecast.date).Sorted (· < ·)) :=
  forecast_agg_C1 samples6 (by decide)

/-- C2: two same-day samples at equal distance from noon — the earlier
sample in input order is retained (the replacement test is strict `<`). -/
theorem forecast_tie_C2 (a b : RawItem)
    (hk : dateKeyOfMs (a.dt * 1000) = dateKeyOfMs (b.dt * 1000))
    (hd : noonDist (hoursOfMs (b.dt * 1000)) =
      noonDist (hoursOfMs (a.dt * 1000))) :
    formatForecast [a, b] = [mkDaily a] := by
  have h1 : forecastStep [] a = [(dateKeyOfMs (a.dt * 1000), mkDaily a)] := by
    rw [@forecastStep_of_get_none [] a rfl]
    rfl
  have hget : objGet [(dateKeyOfMs (a.dt * 1000), mkDaily a)]
      (dateKeyOfMs (b.dt * 1000)) = some (mkDaily a) := by
    simp [objGet, hk]
  have hts : (mkDaily a).timestamp = a.dt * 1000 := rfl
  have hc : ¬ noonDist (hoursOfMs (b.dt * 1000)) <
      noonDist (hoursOfMs (mkDaily a).timestamp) := by
    rw [hts, hd]
    exact lt_irrefl _
  unfold formatForecast
  rw [List.foldl_cons, List.foldl_cons, List.foldl_nil, h1,
    forecastStep_of_get_some_ge hget hc]
  rfl

/-- C2 witness: same-day samples at hours 10 and 14 (both at distance 2
from noon): the hour-10 sample, seen first, is retained. -/
theorem forecast_tie_C2_witness :
    formatForecast [sampleAt 36000, sampleAt 50400]
      = [mkDaily (sampleAt 36000)] :=
  forecast_tie_C2 (sampleAt 36000) (sampleAt 50400) (by decide) (by decide)

/-- C3: of two same-day samples, the one whose hour is strictly closer
to noon is selected, whichever comes first in the input. -/
theorem forecast_noon_C3 (a b : RawItem)
    (hk : dateKeyOfMs (a.dt * 1000) = dateKeyOfMs (b.dt * 1000)) :
    (noonDist (hoursOfMs (b.dt * 1000)) <
        noonDist (hoursOfMs (a.dt * 1000)) →
      formatForecast [a, b] = [mkDaily b]) ∧
    (noonDist (hoursOfMs (a.dt * 1000)) <
        noonDist (hoursOfMs (b.dt * 1000)) →
      formatForecast [a, b] = [mkDaily a]) := by
  have h1 : forecastStep [] a = [(dateKeyOfMs (a.dt * 1000), mkDaily a)] := by
    rw [@forecastStep_of_get_none [] a rfl]
    rfl
  have hget : objGet [(dateKeyOfMs (a.dt * 1000), mkDaily a)]
      (dateKeyOfMs (b.dt * 1000)) = some (mkDaily a) := by
    simp [objGet, hk]
  have hts : (mkDaily a).timestamp = a.dt * 1000 := rfl
  constructor
  · intro hlt
    have hc : noonDist (hoursOfMs (b.dt * 1000)) <
        noonDist (hoursOfMs (mkDaily a).timestamp) := by
      rw [hts]
      exact hlt
    unfold formatForecast
    rw [List.foldl_cons, List.foldl_cons, List.foldl_nil, h1,
      forecastStep_of_get_some_lt hget hc]
    simp [objSet, hk]
  · intro hlt
    have hc : ¬ noonDist (hoursOfMs (b.dt * 1000)) <
        noonDist (hoursOfMs (mkDaily a).timestamp) := by
      rw [hts]
      exact lt_asymm hlt
    unfold formatForecast
    rw [List.foldl_cons, List.foldl_cons, List.foldl_nil, h1,
      forecastStep_of_get_some_ge hget hc]
    rfl

/-- C3 witness: same-day samples at hours 9 and 14 in either input
order — the hour-14 sample (distance 2 < 3) is selected. -/
theorem forecast_noon_C3_witness :
    formatForecast [sampleAt 32400, sampleAt 50400]
      = [mkDaily (sampleAt 50400)] ∧
    formatForecast [sampleAt 50400, sampleAt 32400]
      = [mkDaily (sampleAt 50400)] :=
  ⟨(forecast_noon_C3 (sampleAt 32400) (sampleAt 50400) (by decide)).1
      (by decide),
   (forecast_noon_C3 (sampleAt 50400) (sampleAt 32400) (by decide)).2
      (by decide)⟩

/-! ## Claim theorems: icon mapping -/

theorem objGet_mem {K V : Type} [DecidableEq K]
    {m : List (K × V)} {k : K} {v : V}
    (h : objGet m k = some v) : (k, v) ∈ m := by
  induction m with
  | nil => simp [objGet] at h
  | cons q t ih =>
    obtain ⟨k', v'⟩ := q
    by_cases hk : k' = k
    · simp only [objGet, if_pos hk, Option.some.injEq] at h
      subst hk
      subst h
      exact List.mem_cons_self _ _
    · simp only [objGet, if_neg hk] at h
      exact List.mem_cons_of_mem _ (ih h)

theorem icon_values_nonempty : ∀ s ∈ iconMap.map Prod.snd, s ≠ "" := by
  decide

/-- C7: `getWeatherIcon` is total — any code outside the table yields
the thermometer fallback, and any code in the table yields its mapped
symbol. -/
theorem icon_C7 :
    (∀ code, objGet iconMap code = none → getWeatherIcon code = "🌡️") ∧
    (∀ code v, objGet iconMap code = some v → getWeatherIcon code = v) := by
  constructor
  · intro code h
    unfold getWeatherIcon
    rw [h]
  · intro code v h
    have hv : v ≠ "" := by
      have hm : (code, v) ∈ iconMap := objGet_mem h
      exact icon_values_nonempty v (List.mem_map_of_mem _ hm)
    have he : getWeatherIcon code = if v = "" then "🌡️" else v := by
      unfold getWeatherIcon
      rw [h]
    rw [he, if_neg hv]

/-- C7 witness: an unknown code falls back; a known code maps. -/
theorem icon_C7_witness :
    getWeatherIcon "99x" = "🌡️" ∧ getWeatherIcon "01d" = "☀️" :=
  ⟨icon_C7.1 "99x" (by decide), icon_C7.2 "01d" "☀️" (by decide)⟩

/-! ## Claim theorems: storage boundary -/

/-- C8: a failing serialization or storage collaborator makes
`saveToStorage` return `false` and `getFromStorage` return `none`; the
functions are total, so no exception crosses the boundary. -/
theorem storage_C8 :
    (∀ (stringifyRes : Except JSError String)
       (setItemRes : String → Except JSError Unit),
      ((∃ e, stringifyRes = Except.error e) ∨
       (∃ s e, stringifyRes = Except.ok s ∧
         setItemRes s = Except.error e)) →
      saveToStorage stringifyRes setItemRes = false) ∧
    (∀ (α : Type) (getItemRes : Except JSError (Option String))
       (parseRes : String → Except JSError α),
      ((∃ e, getItemRes = Except.error e) ∨
       (∃ s e, getItemRes = Except.ok (some s) ∧
         parseRes s = Except.error e)) →
      getFromStorage getItemRes parseRes = none) := by
  constructor
  · rintro st si (⟨e, rfl⟩ | ⟨s, e, rfl, hsi⟩)
    · rfl
    · unfold saveToStorage
      show (match si s with
            | .error _ => false
            | .ok _ => true) = false
      rw [hsi]
  · rintro α gi pr (⟨e, rfl⟩ | ⟨s, e, rfl, hpr⟩)
    · rfl
    · unfold getFromStorage
      show (if s = "" then none
            else match pr s with
                 | .error _ => none
                 | .ok v => some v) = (none : Option α)
      by_cases hs : s = ""
      · rw [if_pos hs]
      · rw [if_neg hs, hpr]

/-- C8 witness: a throwing serializer makes `saveToStorage` return
`false`; a throwing parser makes `getFromStorage` return `none`. -/
theorem storage_C8_witness :
    saveToStorage (Except.error JSError.typeError)
      (fun _ => Except.ok ()) = false ∧
    getFromStorage (Except.ok (some "x"))
      (fun _ => (Except.error JSError.syntaxError : Except JSError ℕ))
      = none :=
  ⟨storage_C8.1 _ _ (Or.inl ⟨JSError.typeError, rfl⟩),
   storage_C8.2 ℕ _ _ (Or.inr ⟨"x", JSError.syntaxError, rfl, rfl⟩)⟩

/-! ## Claim theorems: favorites -/

/-- C5: `addFavoriteCity` preserves case-insensitive uniqueness of the
stored names, and adding `"Paris"` then `"paris"` leaves exactly one
favorite with that name. -/
theorem fav_C5 :
    (∀ (s : AppStore) (c : CityData) (now : ℕ),
      caseInsensUnique (getFavoriteCities s) →
      caseInsensUnique (getFavoriteCities (addFavoriteCity s c now).1)) ∧
    (getFavoriteCities
        (addFavoriteCity (addFavoriteCity AppStore.empty parisCity 100).1
          parisLower 200).1).countP
      (fun f => jsToLower f.name == "paris") = 1 := by
  constructor
  · intro s c now h
    by_cases hex : ((getFavoriteCities s).any
        fun fav => jsToLower fav.name = jsToLower c.name) = true
    · simp only [addFavoriteCity, hex, if_true]
      exact h
    · simp only [addFavoriteCity, hex, if_false, Bool.false_eq_true]
      simp only [List.any_eq_true, decide_eq_true_eq, not_exists,
        not_and] at hex
      unfold getFavoriteCities
      simp only [Option.getD_some]
      unfold caseInsensUnique
      rw [List.pairwise_append]
      refine ⟨h, List.pairwise_singleton _ _, ?_⟩
      intro f hf g hg
      simp only [List.mem_singleton] at hg
      subst hg
      exact hex f hf
  · decide

/-- C5 witness: adding Paris to the empty store keeps the invariant. -/
theorem fav_C5_witness :
    caseInsensUnique
      (getFavoriteCities (addFavoriteCity AppStore.empty parisCity 100).1) :=
  fav_C5.1 AppStore.empty parisCity 100 List.Pairwise.nil

/-- C6: `removeFavoriteCity` removes every case-insensitive match and
keeps every non-match; in particular removing `"Paris"` removes the
favorite stored as `"PARIS"` and keeps `"London"`. -/
theorem fav_C6 :
    (∀ (s : AppStore) (cityName : String) (f : Fav),
      f ∈ getFavoriteCities (removeFavoriteCity s cityName).1 →
      jsToLower f.name ≠ jsToLower cityName) ∧
    (∀ (s : AppStore) (cityName : String) (f : Fav),
      f ∈ getFavoriteCities s → jsToLower f.name ≠ jsToLower cityName →
      f ∈ getFavoriteCities (removeFavoriteCity s cityName).1) ∧
    getFavoriteCities (removeFavoriteCity storePARIS "Paris").1
      = [favLondon] := by
  refine ⟨?_, ?_, by decide⟩
  · intro s n f hf
    simp only [removeFavoriteCity, getFavoriteCities,
      Option.getD_some] at hf
    have := List.of_mem_filter hf
    simpa using this
  · intro s n f hf hne
    simp only [removeFavoriteCity, getFavoriteCities, Option.getD_some]
    exact List.mem_filter.mpr ⟨hf, by simpa using hne⟩

/-- C6 witness: after removing `"Paris"` from the store holding
`"PARIS"` and `"London"`, the surviving favorite is a non-match and
`"London"` indeed survives. -/
theorem fav_C6_witness :
    jsToLower favLondon.name ≠ jsToLower "Paris" ∧
    favLondon ∈ getFavoriteCities (removeFavoriteCity storePARIS "Paris").1 :=
  ⟨fav_C6.1 storePARIS "Paris" favLondon (by decide),
   fav_C6.2.1 storePARIS "Paris" favLondon (by decide) (by decide)⟩

/-- C9: a case-insensitive name clash makes `addFavoriteCity` return
`false` and leave the store untouched. -/
theorem fav_C9 (s : AppStore) (c : CityData) (now : ℕ)
    (h : ∃ f ∈ getFavoriteCities s, jsToLower f.name = jsToLower c.name) :
    addFavoriteCity s c now = (s, false) := by
  have hany : ((getFavoriteCities s).any
      fun fav => jsToLower fav.name = jsToLower c.name) = true := by
    simp only [List.any_eq_true, decide_eq_true_eq]
    exact h
  simp only [addFavoriteCity, hany, if_true]

/-- C9 witness: adding `"Paris"` to the store already holding `"PARIS"`
is rejected and leaves the store unchanged. -/
theorem fav_C9_witness :
    addFavoriteCity storePARIS parisCity 300 = (storePARIS, false) :=
  fav_C9 storePARIS parisCity 300
    ⟨favPARIS, List.mem_cons_self _ _, by decide⟩

/-! ## Claim theorems: staleness check -/

/-- C4 (amended): `needsRefresh` returns `true` when no timestamp is
recorded; when a nonzero timestamp is recorded it returns `true` exactly
when the elapsed time strictly exceeds the threshold.  (A recorded
timestamp of exactly `0` is treated as unsaved, see the
counterexample.) -/
theorem refresh_C4 :
    (∀ (s : AppStore) (now : ℤ) (minutes : ℕ),
      getLastUpdate s = none → needsRefresh s now minutes = true) ∧
    (∀ (s : AppStore) (t now : ℤ) (minutes : ℕ),
      getLastUpdate s = some t → t ≠ 0 →
      (needsRefresh s now minutes = true ↔
        now - t > (minutes : ℤ) * 60 * 1000)) := by
  constructor
  · intro s now minutes h
    unfold needsRefresh
    rw [h]
  · intro s t now minutes h ht
    unfold needsRefresh
    rw [h]
    show (if t = 0 then true
          else decide (now - t > (minutes : ℤ) * 60 * 1000)) = true ↔ _
    rw [if_neg ht]
    exact decide_eq_true_iff

/-- C4 counterexample: with the recorded timestamp `0` and elapsed time
exactly the 10-minute threshold, the claim demands `false` but the code
returns `true` (the falsy-zero check fires first). -/
theorem refresh_C4_counterexample :
    getLastUpdate storeAtEpoch = some 0 ∧
    (600000 : ℤ) - 0 = (10 : ℤ) * 60 * 1000 ∧
    ¬ (needsRefresh storeAtEpoch 600000 10 = true ↔
        (600000 : ℤ) - 0 > (10 : ℤ) * 60 * 1000) := by
  refine ⟨rfl, by decide, ?_⟩
  intro hiff
  exact absurd (hiff.mp (by decide)) (by decide)

/-- C4 witness: no saved timestamp gives `true`; a nonzero saved
timestamp gives the strict threshold comparison. -/
theorem refresh_C4_witness :
    needsRefresh AppStore.empty 0 10 = true ∧
    (needsRefresh storeAtOne 600002 10 = true ↔
      (600002 : ℤ) - 1 > (10 : ℤ) * 60 * 1000) :=
  ⟨refresh_C4.1 AppStore.empty 0 10 rfl,
   refresh_C4.2 storeAtOne 1 600002 10 rfl (by decide)⟩

/-- C10: a recorded last-update timestamp of exactly `0` makes
`needsRefresh` return `true` for every `now` and every threshold,
because `!lastUpdate` treats the falsy `0` as unsaved. -/
theorem refresh_C10 (s : AppStore) (now : ℤ) (minutes : ℕ)
    (h : getLastUpdate s = some 0) :
    needsRefresh s now minutes = true := by
  unfold needsRefresh
  rw [h]
  show (if (0 : ℤ) = 0 then true
        else decide (now - 0 > (minutes : ℤ) * 60 * 1000)) = true
  rw [if_pos rfl]

/-- C10 witness: the epoch-timestamp store is always stale. -/
theorem refresh_C10_witness :
    needsRefresh storeAtEpoch (-5) 3 = true :=
  refresh_C10 storeAtEpoch (-5) 3 rfl

end WeatherApp
